import Mathlib

/-!
Verification of the rate/commodity/note extraction and normalization pipeline
of the CP tariff OCR repository.

The Lean definitions below are a shallow embedding of the Python functions in
  backend/app/document_processor/enhanced_data_processor.py
  backend/app/document_processor/ai_data_processor.py
  backend/app/document_processor/production_ocr_processor.py
  backend/app/document_processor/ocr_engine_enhanced.py
Python strings become Lean String, Python dicts become ordered association
lists (Python 3.7+ dicts preserve insertion order), Python dynamic values
become the small sum type PyV, exceptions become Except/Option, and
Python's re module is embedded by a small backtracking regular-expression
engine with capture groups (leftmost search, greedy priority), defined below.
ASCII text is assumed throughout (the OCR pipeline only handles ASCII), so
Python's upper/lower/isalpha agree with Lean's Char operations.
-/

/-- Subset of Python runtime values appearing in the records handled by the
pipeline: strings, ints and bools. -/
inductive PyV where
  | s (v : String)
  | i (v : Int)
  | b (v : Bool)
deriving DecidableEq, Repr

/-- Python truthiness for PyV: empty string, 0 and False are falsy. -/
def pyTruthy : PyV → Bool
  | .s v => !v.isEmpty
  | .i v => v != 0
  | .b v => v

/-- Python str() on PyV. -/
def pyToStr : PyV → String
  | .s v => v
  | .i v => toString v
  | .b v => if v then "True" else "False"

/-- Python's notion of whitespace for str.strip and str.split (ASCII part). -/
def pyIsSpace (c : Char) : Bool :=
  c == ' ' || c == '\t' || c == '\n' || c == '\r' || c == '\x0b' || c == '\x0c'

/-- Python str.upper on ASCII text. -/
def pyUpper (s : String) : String := String.mk (s.data.map Char.toUpper)

/-- Python str.lower on ASCII text. -/
def pyLower (s : String) : String := String.mk (s.data.map Char.toLower)

/-- Python str.strip() with no argument: trim whitespace from both ends. -/
def pyStrip (s : String) : String :=
  String.mk (((s.data.dropWhile pyIsSpace).reverse.dropWhile pyIsSpace).reverse)

/-- Accumulating loop for pySplitWs: current word characters are collected
in reverse in acc. -/
def splitWsAux : List Char → List Char → List String
  | [], acc => if acc.isEmpty then [] else [String.mk acc.reverse]
  | c :: t, acc =>
    if pyIsSpace c then
      if acc.isEmpty then splitWsAux t [] else String.mk acc.reverse :: splitWsAux t []
    else splitWsAux t (c :: acc)

/-- Python str.split() with no argument: split on whitespace runs,
dropping empty chunks. -/
def pySplitWs (s : String) : List String := splitWsAux s.data []

/-- Accumulating loop for splitOnChar. -/
def splitOnCharAux (sep : Char) : List Char → List Char → List String
  | [], acc => [String.mk acc.reverse]
  | c :: t, acc =>
    if c == sep then String.mk acc.reverse :: splitOnCharAux sep t []
    else splitOnCharAux sep t (c :: acc)

/-- Python str.split(sep) for a one-character separator (empty chunks are
kept, and the empty string splits to ['']). -/
def splitOnChar (sep : Char) (s : String) : List String := splitOnCharAux sep s.data []

/-- List-level check that l starts with sub. -/
def startsWithL : List Char → List Char → Bool
  | _, [] => true
  | [], _ :: _ => false
  | a :: as, b :: bs => a == b && startsWithL as bs

/-- List-level substring containment (Python `sub in hay`). -/
def containsSubL (sub : List Char) : List Char → Bool
  | [] => startsWithL [] sub
  | c :: t => startsWithL (c :: t) sub || containsSubL sub t

/-- Python `sub in hay` on strings. -/
def containsSub (hay sub : String) : Bool := containsSubL sub.data hay.data

/-- Python str.replace(old, new), non-overlapping left-to-right; old is
assumed non-empty at every call site in the embedded code. -/
def pyReplaceL : Nat → List Char → List Char → List Char → List Char
  | 0, l, _, _ => l
  | _ + 1, [], _, _ => []
  | f + 1, c :: t, old, new =>
    if old.isEmpty then c :: t
    else if startsWithL (c :: t) old then new ++ pyReplaceL f ((c :: t).drop old.length) old new
    else c :: pyReplaceL f t old new

/-- Python str.replace on strings. -/
def pyReplace (s old new : String) : String :=
  String.mk (pyReplaceL s.data.length s.data old.data new.data)

/-- Python str.count(sub): non-overlapping occurrences; sub is non-empty at
every call site in the embedded code. -/
def countOccurL : Nat → List Char → List Char → Nat
  | 0, _, _ => 0
  | _ + 1, [], _ => 0
  | f + 1, c :: t, sub =>
    if sub.isEmpty then 0
    else if startsWithL (c :: t) sub then 1 + countOccurL f ((c :: t).drop sub.length) sub
    else countOccurL f t sub

/-- Python str.count on strings. -/
def countOccur (s sub : String) : Nat := countOccurL s.data.length s.data sub.data

/-- The regex \w character class (ASCII): letters, digits, underscore. -/
def wordChar (c : Char) : Bool := c.isAlphanum || c == '_'

/-- Effect of re.sub(r'^[^\w]+|[^\w]+$', '', s): drop non-word characters
from both ends of the string. -/
def stripNonWord (s : String) : String :=
  String.mk (((s.data.dropWhile (fun c => !wordChar c)).reverse.dropWhile
    (fun c => !wordChar c)).reverse)

/-- Python str.title() on ASCII text: uppercase an alphabetic character that
follows a non-alphabetic one, lowercase the rest of each alphabetic run. -/
def pyTitleL : Bool → List Char → List Char
  | _, [] => []
  | prevAlpha, c :: t =>
    (if c.isAlpha then (if prevAlpha then c.toLower else c.toUpper) else c) ::
      pyTitleL c.isAlpha t

/-- Python str.title on strings. -/
def pyTitle (s : String) : String := String.mk (pyTitleL false s.data)

/-- Python str.zfill(n) for the unsigned strings produced by the embedded
code (regex digit groups): left-pad with zeros to length n. -/
def pyZfill (s : String) (n : Nat) : String :=
  if n ≤ s.length then s else String.mk (List.replicate (n - s.length) '0' ++ s.data)

/-- Python int(s) on an already-stripped string: optional sign followed by
decimal digits (underscore digit separators are not modelled; no call site
can produce them). None models the ValueError path. -/
def pyParseInt (s : String) : Option Int :=
  let core (ds : List Char) : Option Nat :=
    if ds ≠ [] && ds.all Char.isDigit then
      some (ds.foldl (fun n c => n * 10 + (c.toNat - '0'.toNat)) 0)
    else none
  match (pyStrip s).data with
  | '+' :: t => (core t).map Int.ofNat
  | '-' :: t => (core t).map (fun n => -(Int.ofNat n))
  | t => (core t).map Int.ofNat

/-- Decimal digits to a natural number. -/
def digitsVal (ds : List Char) : Nat :=
  ds.foldl (fun n c => n * 10 + (c.toNat - '0'.toNat)) 0

/-- Python float(s) for strings made only of digits and dots (the only
inputs reaching it in the embedded code, after the [^\d.] filter). The
result is a scaled decimal (m, k) denoting m / 10^k, the exact value the
string spells; the binary floating-point representation is abstracted to
this exact value. None models the ValueError path: no digits, or more than
one dot. -/
def pyFloatDigitsDots (s : String) : Option (Nat × Nat) :=
  match splitOnChar '.' s with
  | [a] =>
    if a ≠ "" && a.data.all Char.isDigit then some (digitsVal a.data, 0) else none
  | [a, b] =>
    if (a ++ b) ≠ "" && a.data.all Char.isDigit && b.data.all Char.isDigit then
      some (digitsVal (a.data ++ b.data), b.data.length)
    else none
  | _ => none

/-- The rational value denoted by a scaled decimal (m, k). -/
def decValue (p : Nat × Nat) : ℚ := (p.1 : ℚ) / (10 : ℚ) ^ p.2

/-- Python f-string formatting with :.2f of the non-negative scaled decimal
(m, k): round m / 10^k to a whole number of cents, ties to even (the
rounding used by Python's formatting, computed here on the exact decimal),
and print cents / 100 with two decimals. -/
def formatF2 (p : Nat × Nat) : String :=
  let m := 100 * p.1
  let d := 10 ^ p.2
  let q := m / d
  let r := m % d
  let cents := if 2 * r < d then q else if d < 2 * r then q + 1
               else if q % 2 == 0 then q else q + 1
  toString (cents / 100) ++ "." ++ pyZfill (toString (cents % 100)) 2

/-- Lookup in a Python dict modelled as an ordered association list. -/
def alookup {α : Type} (h : List (String × α)) (k : String) : Option α :=
  (h.find? (fun p => p.1 == k)).map (fun p => p.2)

/-- Python dict assignment d[k] = v: replace the value in place if the key
exists (a dict holds each key once), otherwise append the new binding. -/
def dictSet {α : Type} : List (String × α) → String → α → List (String × α)
  | [], k, v => [(k, v)]
  | p :: t, k, v => if p.1 == k then (k, v) :: t else p :: dictSet t k v

/-- Abstract syntax of the regular expressions used by the embedded code:
character classes, concatenation, alternation, greedy star, numbered capture
groups, and the word-boundary assertion. Bounded repetitions are desugared
into these constructors. -/
inductive RE where
  | eps : RE
  | cls (p : Char → Bool) : RE
  | cat (a b : RE) : RE
  | alt (a b : RE) : RE
  | star (a : RE) : RE
  | grp (i : Nat) (a : RE) : RE
  | bnd : RE

/-- Structural size of a regex, used only to pick an adequate fuel bound. -/
def reSize : RE → Nat
  | .eps => 1
  | .cls _ => 1
  | .cat a b => reSize a + reSize b + 1
  | .alt a b => reSize a + reSize b + 1
  | .star a => reSize a + 1
  | .grp _ a => reSize a + 1
  | .bnd => 1

/-- Backtracking matcher. Given fuel, a regex, the remaining input, the
character just before the remaining input (for the word-boundary assertion)
and the captures so far, it returns every way the regex can match a prefix
of the input, as (rest, previous character, captures), in Python's
backtracking priority order: greedy alternatives first, so the head of the
list is the match Python's engine picks. Capture groups record the consumed
text; the most recent record for a group number wins. -/
def mrun : Nat → RE → List Char → Option Char → List (Nat × List Char) →
    List (List Char × Option Char × List (Nat × List Char))
  | 0, _, _, _, _ => []
  | _ + 1, .eps, s, p, g => [(s, p, g)]
  | _ + 1, .cls q, s, _, g =>
    match s with
    | [] => []
    | c :: t => if q c then [(t, some c, g)] else []
  | f + 1, .cat a b, s, p, g =>
    (mrun f a s p g).flatMap (fun r => mrun f b r.1 r.2.1 r.2.2)
  | f + 1, .alt a b, s, p, g => mrun f a s p g ++ mrun f b s p g
  | f + 1, .star a, s, p, g =>
    ((mrun f a s p g).flatMap (fun r =>
      if r.1.length < s.length then mrun f (.star a) r.1 r.2.1 r.2.2 else [r])) ++ [(s, p, g)]
  | f + 1, .grp i a, s, p, g =>
    (mrun f a s p g).map (fun r => (r.1, r.2.1, (i, s.take (s.length - r.1.length)) :: r.2.2))
  | _ + 1, .bnd, s, p, g =>
    let before := match p with | none => false | some c => wordChar c
    let after := match s with | [] => false | c :: _ => wordChar c
    if before != after then [(s, p, g)] else []

/-- Fuel bound for mrun: generous enough for every pattern and input the
embedded code evaluates (star bodies of the embedded patterns always consume
at least one character, so the recursion depth is below this bound). -/
def reFuel (re : RE) (s : List Char) : Nat := (reSize re + 2) * (s.length + 2)

/-- re.search: try the pattern at each start position, leftmost first; at
the first position with a match, return the consumed text and the captures
of the highest-priority (Python) match. -/
def searchAux (re : RE) : Option Char → List Char → Option (List Char × List (Nat × List Char))
  | p, s =>
    match mrun (reFuel re s) re s p [] with
    | r :: _ => some (s.take (s.length - r.1.length), r.2.2)
    | [] =>
      match s with
      | [] => none
      | c :: t => searchAux re (some c) t

/-- re.search on a string: whole match text (group 0) plus captures. -/
def reSearch (re : RE) (s : String) : Option (String × List (Nat × String)) :=
  (searchAux re none s.data).map
    (fun r => (String.mk r.1, r.2.map (fun c => (c.1, String.mk c.2))))

/-- match.group(i): the text of capture group i ('' if absent, which no
embedded call site can observe: every group of every pattern used always
participates in a successful match). -/
def capGet (caps : List (Nat × String)) (i : Nat) : String :=
  match caps.find? (fun c => c.1 == i) with
  | some c => c.2
  | none => ""

/-- re.finditer: non-overlapping matches scanned left to right, resuming
after each match. A zero-width match is skipped and the scan advances by
one character (the patterns iterated by the embedded code can never match
the empty string, so this path is unobservable). -/
def findIterAux (re : RE) : Nat → Option Char → List Char →
    List (List Char × List (Nat × List Char))
  | 0, _, _ => []
  | f + 1, p, s =>
    match mrun (reFuel re s) re s p [] with
    | r :: _ =>
      let consumed := s.take (s.length - r.1.length)
      if consumed.isEmpty then
        match s with
        | [] => []
        | c :: t => findIterAux re f (some c) t
      else (consumed, r.2.2) :: findIterAux re f r.2.1 r.1
    | [] =>
      match s with
      | [] => []
      | c :: t => findIterAux re f (some c) t

/-- re.finditer on a string: list of (group 0 text, captures). -/
def reFindIter (re : RE) (s : String) : List (String × List (Nat × String)) :=
  (findIterAux re (s.data.length + 1) none s.data).map
    (fun r => (String.mk r.1, r.2.map (fun c => (c.1, String.mk c.2))))

/-- re.findall for a pattern with a single capture group: the list of the
group-1 texts of the non-overlapping matches. -/
def reFindAll1 (re : RE) (s : String) : List String :=
  (reFindIter re s).map (fun m => capGet m.2 1)

/-- Single literal character. -/
def reChr (c : Char) : RE := .cls (fun x => x == c)

/-- Case-insensitive literal character (re.IGNORECASE). -/
def reChrCI (c : Char) : RE := .cls (fun x => x.toLower == c.toLower)

/-- Literal string as a regex. -/
def reStr (s : String) : RE := s.data.foldr (fun c r => .cat (reChr c) r) .eps

/-- Case-insensitive literal string. -/
def reStrCI (s : String) : RE := s.data.foldr (fun c r => .cat (reChrCI c) r) .eps

/-- Concatenation of a list of regexes. -/
def reCat (l : List RE) : RE := l.foldr .cat .eps

/-- Greedy optional: X? prefers matching X. -/
def reOpt (a : RE) : RE := .alt a .eps

/-- Greedy plus: X+ as X X*. -/
def rePlus (a : RE) : RE := .cat a (.star a)

/-- Exact repetition X-n-times. -/
def reRep (n : Nat) (a : RE) : RE := reCat (List.replicate n a)

/-- Greedy bounded repetition X-m-to-n-times (n greater or equal m): m
mandatory copies then n minus m greedy optional copies. -/
def reRepRange (m n : Nat) (a : RE) : RE :=
  .cat (reRep m a) (reCat (List.replicate (n - m) (reOpt a)))

/-- The \d class (ASCII digits). -/
def reDigit : RE := .cls Char.isDigit

/-- The \s class (Python whitespace). -/
def reSpace : RE := .cls pyIsSpace

/-- The \w class. -/
def reWord : RE := .cls wordChar

/-- The [A-Z] class. -/
def reUpperAZ : RE := .cls (fun c => 'A' ≤ c && c ≤ 'Z')

/-- The [A-Za-z\s] class used by the location patterns. -/
def reAlphaSpace : RE := .cls (fun c => c.isAlpha || pyIsSpace c)

/-- A regex with no capture group: its matches never touch the captures. -/
def grpFree : RE → Bool
  | .eps => true
  | .cls _ => true
  | .cat a b => grpFree a && grpFree b
  | .alt a b => grpFree a && grpFree b
  | .star a => grpFree a
  | .grp _ _ => false
  | .bnd => true

/-- Pattern r'([A-Z][A-Za-z\s]+[A-Z]{2})\s+(?:to|TO)\s+([A-Z][A-Za-z\s]+[A-Z]{2})'
from AIDataProcessor._extract_locations_from_line. -/
def toPatternRE : RE :=
  reCat [.grp 1 (reCat [reUpperAZ, rePlus reAlphaSpace, reUpperAZ, reUpperAZ]),
         rePlus reSpace, .alt (reStr "to") (reStr "TO"), rePlus reSpace,
         .grp 2 (reCat [reUpperAZ, rePlus reAlphaSpace, reUpperAZ, reUpperAZ])]

/-- Pattern r'\$?(\d+\.\d{2})' from AIDataProcessor._parse_rate_line. -/
def rateAmountRE : RE :=
  reCat [reOpt (reChr '$'), .grp 1 (reCat [rePlus reDigit, reChr '.', reDigit, reDigit])]

/-- Pattern r'([A-Z][A-Za-z\s]+\s+[A-Z]{2})' from
AIDataProcessor._extract_locations_from_line (the findall fallback). -/
def locationPatternRE : RE :=
  .grp 1 (reCat [reUpperAZ, rePlus reAlphaSpace, rePlus reSpace, reUpperAZ, reUpperAZ])

/-- Pattern r'(\w{3})\s+(\d{1,2}),?\s+(\d{4})': month-name date format. -/
def dateP1 : RE :=
  reCat [.grp 1 (reRep 3 reWord), rePlus reSpace, .grp 2 (reRepRange 1 2 reDigit),
         reOpt (reChr ','), rePlus reSpace, .grp 3 (reRep 4 reDigit)]

/-- Pattern for the MM/DD/YYYY format: one or two digits, a slash-or-dash
class, one or two digits, a slash-or-dash class, four digits, with the three
digit runs captured. -/
def dateP2 : RE :=
  reCat [.grp 1 (reRepRange 1 2 reDigit), .cls (fun c => c == '/' || c == '-'),
         .grp 2 (reRepRange 1 2 reDigit), .cls (fun c => c == '/' || c == '-'),
         .grp 3 (reRep 4 reDigit)]

/-- Pattern r'(\d{4})-(\d{1,2})-(\d{1,2})': YYYY-MM-DD format. -/
def dateP3 : RE :=
  reCat [.grp 1 (reRep 4 reDigit), reChr '-', .grp 2 (reRepRange 1 2 reDigit),
         reChr '-', .grp 3 (reRepRange 1 2 reDigit)]

/-- Body of the STCC pattern: two digits, whitespace, three digits,
whitespace, two digits. -/
def stccInnerRE : RE :=
  reCat [reDigit, reDigit, rePlus reSpace, reDigit, reDigit, reDigit,
         rePlus reSpace, reDigit, reDigit]

/-- Pattern r'(\d{2}\s+\d{3}\s+\d{2})': STCC commodity codes (group 1 is
the whole match). -/
def stccRE : RE := .grp 1 stccInnerRE

/-- Pattern r'CP(\d{3,4})' with re.IGNORECASE. -/
def route1RE : RE := reCat [reChrCI 'C', reChrCI 'P', .grp 1 (reRepRange 3 4 reDigit)]

/-- Pattern r'ROUTE\s*:?\s*(\d{3,4})' with re.IGNORECASE. -/
def route2RE : RE :=
  reCat [reStrCI "ROUTE", .star reSpace, reOpt (reChr ':'), .star reSpace,
         .grp 1 (reRepRange 3 4 reDigit)]

/-- Pattern r'\b(\d{4})\b'. -/
def route3RE : RE := reCat [.bnd, .grp 1 (reRep 4 reDigit), .bnd]

/-- The state/province code list of
EnhancedDataProcessor._extract_state_from_location: 13 Canadian province and
territory codes followed by 50 US state codes. -/
def state_codes : List String :=
  ["AB", "BC", "MB", "NB", "NL", "NS", "NT", "NU", "ON", "PE", "QC", "SK", "YT",
   "AL", "AK", "AZ", "AR", "CA", "CO", "CT", "DE", "FL", "GA", "HI", "ID",
   "IL", "IN", "IA", "KS", "KY", "LA", "ME", "MD", "MA", "MI", "MN", "MS",
   "MO", "MT", "NE", "NV", "NH", "NJ", "NM", "NY", "NC", "ND", "OH", "OK",
   "OR", "PA", "RI", "SC", "SD", "TN", "TX", "UT", "VT", "VA", "WA", "WV", "WI", "WY"]

/-- The state/province dict of AIDataProcessor (code mapped to full name);
membership tests use only the keys. -/
def state_province_codes : List (String × String) :=
  [("AB", "Alberta"), ("BC", "British Columbia"), ("MB", "Manitoba"),
   ("NB", "New Brunswick"), ("NL", "Newfoundland and Labrador"), ("NS", "Nova Scotia"),
   ("NT", "Northwest Territories"), ("NU", "Nunavut"), ("ON", "Ontario"),
   ("PE", "Prince Edward Island"), ("QC", "Quebec"), ("SK", "Saskatchewan"), ("YT", "Yukon"),
   ("AL", "Alabama"), ("AK", "Alaska"), ("AZ", "Arizona"), ("AR", "Arkansas"),
   ("CA", "California"), ("CO", "Colorado"), ("CT", "Connecticut"), ("DE", "Delaware"),
   ("FL", "Florida"), ("GA", "Georgia"), ("HI", "Hawaii"), ("ID", "Idaho"),
   ("IL", "Illinois"), ("IN", "Indiana"), ("IA", "Iowa"), ("KS", "Kansas"),
   ("KY", "Kentucky"), ("LA", "Louisiana"), ("ME", "Maine"), ("MD", "Maryland"),
   ("MA", "Massachusetts"), ("MI", "Michigan"), ("MN", "Minnesota"), ("MS", "Mississippi"),
   ("MO", "Missouri"), ("MT", "Montana"), ("NE", "Nebraska"), ("NV", "Nevada"),
   ("NH", "New Hampshire"), ("NJ", "New Jersey"), ("NM", "New Mexico"), ("NY", "New York"),
   ("NC", "North Carolina"), ("ND", "North Dakota"), ("OH", "Ohio"), ("OK", "Oklahoma"),
   ("OR", "Oregon"), ("PA", "Pennsylvania"), ("RI", "Rhode Island"), ("SC", "South Carolina"),
   ("SD", "South Dakota"), ("TN", "Tennessee"), ("TX", "Texas"), ("UT", "Utah"),
   ("VT", "Vermont"), ("VA", "Virginia"), ("WA", "Washington"), ("WV", "West Virginia"),
   ("WI", "Wisconsin"), ("WY", "Wyoming")]

/-- The `for word in words: if word in codes: return word` loop shared by both
_extract_state_from_location implementations; '' when the loop falls through. -/
def firstCodeToken : List String → List String → String
  | [], _ => ""
  | w :: ws, codes => if codes.contains w then w else firstCodeToken ws codes

/-- EnhancedDataProcessor._extract_state_from_location: upper-case, split on
whitespace, return the first token in the code table, or the empty string
(the function is typed -> str and returns '' both for empty input and when
no token matches). -/
def extract_state_from_location (location : String) : String :=
  if location = "" then ""
  else firstCodeToken (pySplitWs (pyUpper location)) state_codes

/-- AIDataProcessor._extract_state_from_location: identical loop, with
membership tested against the keys of the state_province_codes dict. -/
def ai_extract_state_from_location (location : String) : String :=
  if location = "" then ""
  else firstCodeToken (pySplitWs (pyUpper location)) (state_province_codes.map Prod.fst)

/-- The month-abbreviation table shared by the date normalizers. -/
def month_map : List (String × String) :=
  [("JAN", "01"), ("FEB", "02"), ("MAR", "03"), ("APR", "04"),
   ("MAY", "05"), ("JUN", "06"), ("JUL", "07"), ("AUG", "08"),
   ("SEP", "09"), ("OCT", "10"), ("NOV", "11"), ("DEC", "12")]

/-- EnhancedDataProcessor._parse_date: try the three date patterns in order
on the upper-cased input; the first match is formatted from its groups
(month abbreviations default to '01' when not in month_map; no calendar
validation is performed); None when no pattern matches. Every operation is
total, so no exception can escape. -/
def parse_date (date_str : String) : Option String :=
  if date_str = "" then none
  else
    let u := pyUpper date_str
    match reSearch dateP1 u with
    | some (_, caps) =>
      let month := (alookup month_map (capGet caps 1)).getD "01"
      some (capGet caps 3 ++ "-" ++ month ++ "-" ++ pyZfill (capGet caps 2) 2)
    | none =>
      match reSearch dateP2 u with
      | some (_, caps) =>
        some (capGet caps 3 ++ "-" ++ pyZfill (capGet caps 1) 2 ++ "-" ++
              pyZfill (capGet caps 2) 2)
      | none =>
        match reSearch dateP3 u with
        | some (m, _) => some m
        | none => none

/-- AIDataProcessor._standardize_date: only the month-name pattern is tried;
on a match the groups are formatted, otherwise the input string itself is
returned unchanged (never None). -/
def standardize_date (date_str : String) : String :=
  match reSearch dateP1 (pyUpper date_str) with
  | some (_, caps) =>
    let month := (alookup month_map (capGet caps 1)).getD "01"
    capGet caps 3 ++ "-" ++ month ++ "-" ++ pyZfill (capGet caps 2) 2
  | none => date_str

/-- Collapse whitespace runs to a single space: re.sub(r'\s+', ' ', s). -/
def collapseWsL : Nat → List Char → List Char
  | 0, l => l
  | _ + 1, [] => []
  | f + 1, c :: t =>
    if pyIsSpace c then ' ' :: collapseWsL f (t.dropWhile pyIsSpace)
    else c :: collapseWsL f t

/-- The characters kept by re.sub(r'[^\w\s.,()-:;/]', '', s). Inside the
class, the dash between the close-paren and the colon is a character range,
so every character from close-paren through colon (including the digits,
asterisk, plus, comma, dash, dot and slash) is kept. -/
def cleanKeepChar (c : Char) : Bool :=
  wordChar c || pyIsSpace c || c == '.' || c == ',' || c == '(' ||
    (')' ≤ c && c ≤ ':') || c == ';' || c == '/'

/-- EnhancedDataProcessor._clean_text: str() the value, collapse whitespace,
strip, drop characters outside the kept class, truncate to 500 characters.
A falsy input (including the int 0) yields ''. -/
def clean_text (v : PyV) : String :=
  if !pyTruthy v then ""
  else
    let s := pyToStr v
    let cleaned := pyStrip (String.mk (collapseWsL s.data.length s.data))
    String.mk ((cleaned.data.filter cleanKeepChar).take 500)

/-- One date field of EnhancedDataProcessor._process_header: when the field
is present and truthy, _parse_date is applied and the field is kept only when
a date was parsed. A truthy non-string value would hit date_str.upper() and
raise AttributeError, modelled as the error case. -/
def dateFieldPart (header : List (String × PyV)) (field : String) :
    Except Unit (List (String × PyV)) :=
  match alookup header field with
  | some v =>
    if pyTruthy v then
      match v with
      | .s str =>
        match parse_date str with
        | some d => .ok [(field, .s d)]
        | none => .ok []
      | _ => .error ()
    else .ok []
  | none => .ok []

/-- One text field of EnhancedDataProcessor._process_header (cprs_number,
change_description): kept, cleaned, when present and truthy. -/
def textFieldPart (header : List (String × PyV)) (field : String) :
    List (String × PyV) :=
  match alookup header field with
  | some v => if pyTruthy v then [(field, PyV.s (clean_text v))] else []
  | none => []

/-- The item_number branch of EnhancedDataProcessor._process_header:
str(value).strip() when present and truthy. -/
def itemNumberPart (header : List (String × PyV)) : List (String × PyV) :=
  match alookup header "item_number" with
  | some v => if pyTruthy v then [("item_number", PyV.s (pyStrip (pyToStr v)))] else []
  | none => []

/-- The revision branch of EnhancedDataProcessor._process_header: when the
field is present and truthy, int(str(value).strip()) is attempted and on
ValueError/TypeError the field is set to the int 0 (not omitted). -/
def revisionPart (header : List (String × PyV)) : List (String × PyV) :=
  match alookup header "revision" with
  | some v =>
    if pyTruthy v then
      [("revision", PyV.i ((pyParseInt (pyStrip (pyToStr v))).getD 0))]
    else []
  | none => []

/-- EnhancedDataProcessor._process_header: the processed header dict is
assembled field by field in source order; an exception from a date field
propagates out of the function. -/
def process_header (header : List (String × PyV)) :
    Except Unit (List (String × PyV)) :=
  match dateFieldPart header "issue_date" with
  | .error e => .error e
  | .ok issuePart =>
    match dateFieldPart header "effective_date" with
    | .error e => .error e
    | .ok effectivePart =>
      match dateFieldPart header "expiration_date" with
      | .error e => .error e
      | .ok expirationPart =>
        .ok (itemNumberPart header ++ revisionPart header ++ issuePart ++
          effectivePart ++ expirationPart ++ textFieldPart header "cprs_number" ++
          textFieldPart header "change_description")

/-- EnhancedDataProcessor._clean_rate_amount: strip every character except
digits and dots, parse as a float, keep the value only when
0.01 <= value <= 10000 (a closed interval on both ends), and format it with
two decimals; '' on every other path. -/
def clean_rate_amount (amount : String) : String :=
  if amount = "" then ""
  else
    let cleaned := String.mk (amount.data.filter (fun c => c.isDigit || c == '.'))
    match pyFloatDigitsDots cleaned with
    | some value =>
      -- 0.01 <= m / 10^k <= 10000, written on the scaled decimal (m, k)
      if 10 ^ value.2 ≤ 100 * value.1 ∧ value.1 ≤ 10000 * 10 ^ value.2 then
        formatF2 value
      else ""
    | none => ""

/-- First keyword of the list contained in the given (already upper-cased)
string; '' when none is. -/
def firstContained (u : String) : List String → String
  | [] => ""
  | k :: ks => if containsSub u k then k else firstContained u ks

/-- Train-type keyword list of AIDataProcessor._extract_train_type. -/
def train_types_ai : List String :=
  ["SINGLE CAR", "UNIT TRAIN", "25 CAR", "50 CAR", "100 CAR", "LOW CAP", "HIGH CAP"]

/-- AIDataProcessor._extract_train_type. -/
def extract_train_type_ai (line : String) : String :=
  firstContained (pyUpper line) train_types_ai

/-- Equipment keyword list of AIDataProcessor._extract_equipment_type. -/
def equipment_types_ai : List String :=
  ["COVERED HOPPER", "GONDOLA", "TANK CAR", "BOXCAR"]

/-- AIDataProcessor._extract_equipment_type. -/
def extract_equipment_type_ai (line : String) : String :=
  firstContained (pyUpper line) equipment_types_ai

/-- AIDataProcessor._extract_route_code: the three route patterns tried in
order (IGNORECASE), returning group 1 of the first match. -/
def extract_route_code_ai (line : String) : String :=
  match reSearch route1RE line with
  | some (_, caps) => capGet caps 1
  | none =>
    match reSearch route2RE line with
    | some (_, caps) => capGet caps 1
    | none =>
      match reSearch route3RE line with
      | some (_, caps) => capGet caps 1
      | none => ""

/-- AIDataProcessor._extract_locations_from_line: the CITY ST to CITY ST
pattern first, then the generic location pattern (re.findall) needing at
least two matches; ('', '') otherwise. -/
def extract_locations_from_line (line : String) : String × String :=
  match reSearch toPatternRE line with
  | some (_, caps) => (pyStrip (capGet caps 1), pyStrip (capGet caps 2))
  | none =>
    match reFindAll1 locationPatternRE line with
    | l0 :: l1 :: _ => (pyStrip l0, pyStrip l1)
    | _ => ("", "")

/-- The rate dict built by AIDataProcessor._parse_rate_line. -/
structure AiRateDict where
  origin : String
  destination : String
  origin_state : String
  destination_state : String
  rate_amount : String
  currency : String
  rate_category : String
  train_type : String
  equipment_type : String
  route_code : String
deriving DecidableEq, Repr

/-- AIDataProcessor._parse_rate_line: find a dollar amount, extract the two
locations, and return the rate dict only when both origin and destination
are non-empty. No range check is applied to the amount. -/
def parse_rate_line (line : String) : Option AiRateDict :=
  match reSearch rateAmountRE line with
  | none => none
  | some (_, caps) =>
    let rate_amount := capGet caps 1
    let loc := extract_locations_from_line line
    if loc.1 ≠ "" ∧ loc.2 ≠ "" then
      some { origin := loc.1, destination := loc.2,
             origin_state := ai_extract_state_from_location loc.1,
             destination_state := ai_extract_state_from_location loc.2,
             rate_amount := rate_amount, currency := "USD",
             rate_category := "standard",
             train_type := extract_train_type_ai line,
             equipment_type := extract_equipment_type_ai line,
             route_code := extract_route_code_ai line }
    else none

/-- The commodity dicts built by the commodity extractors. -/
structure CommodityDict where
  name : String
  stcc_code : String
  description : String
deriving DecidableEq, Repr

/-- Keyword list of EnhancedOCREngine._extract_commodities_improved. -/
def commodity_keywords_improved : List String :=
  ["WHEAT", "GRAIN", "CORN", "SOYBEAN", "BARLEY", "CANOLA",
   "FEED", "FLOUR", "MEAL", "BRAN", "SCREENINGS"]

/-- The per-STCC-match body of _extract_commodities_improved: the first line
of the text containing the matched code contributes an entry when the line
minus the code, stripped of whitespace and of leading/trailing non-word
characters, is non-empty and longer than 3 characters (the loop breaks after
the first containing line). -/
def stccEntry (text code : String) : List CommodityDict :=
  match (splitOnChar '\n' text).find? (fun line => containsSub line code) with
  | some line =>
    let name := stripNonWord (pyStrip (pyReplace line code ""))
    if name ≠ "" ∧ name.length > 3 then
      [{ name := name, stcc_code := code, description := pyStrip line }]
    else []
  | none => []

/-- The STCC pass of _extract_commodities_improved: one stccEntry pass per
finditer match of the STCC pattern (group 1 is the whole match). -/
def stcc_commodities (text : String) : List CommodityDict :=
  ((reFindIter stccRE text).map (fun m => capGet m.2 1)).flatMap (stccEntry text)

/-- One iteration of the keyword loop of _extract_commodities_improved: a
title-cased keyword entry is appended when the keyword occurs in the
upper-cased text and no entry collected so far has a name whose lower-case
form contains the lower-cased keyword. -/
def commodityKeywordStep (text : String) (commodities : List CommodityDict)
    (keyword : String) : List CommodityDict :=
  if containsSub (pyUpper text) keyword then
    if !(commodities.any (fun c => containsSub (pyLower c.name) (pyLower keyword))) then
      commodities ++ [{ name := pyTitle keyword, stcc_code := "",
                        description := pyTitle keyword ++ " commodity" }]
    else commodities
  else commodities

/-- EnhancedOCREngine._extract_commodities_improved: the STCC pass over all
finditer matches, then the keyword pass. -/
def extract_commodities_improved (text : String) : List CommodityDict :=
  commodity_keywords_improved.foldl (commodityKeywordStep text) (stcc_commodities text)

/-- The rate dicts flowing into ProductionOCRProcessor._deduplicate_rates
(only the three key fields matter to it; raw_line stands for the remaining
payload so that entries with equal keys need not be equal). -/
structure RateEntry where
  origin : String
  destination : String
  rate_amount : String
  raw_line : String
deriving DecidableEq, Repr

/-- The deduplication key (origin, destination, rate_amount). -/
def dedupKey (r : RateEntry) : String × String × String :=
  (r.origin, r.destination, r.rate_amount)

/-- Loop of ProductionOCRProcessor._deduplicate_rates: keep a rate when its
key has not been seen, remembering seen keys. -/
def deduplicate_rates_aux : List RateEntry → List (String × String × String) → List RateEntry
  | [], _ => []
  | r :: t, seen =>
    if seen.contains (dedupKey r) then deduplicate_rates_aux t seen
    else r :: deduplicate_rates_aux t (dedupKey r :: seen)

/-- ProductionOCRProcessor._deduplicate_rates. -/
def deduplicate_rates (rates : List RateEntry) : List RateEntry :=
  deduplicate_rates_aux rates []

/-- Statement-side rendering of the claim's wording: the subsequence formed
by the first occurrence of each key in input order. -/
def firstOccurrences : List RateEntry → List RateEntry
  | [] => []
  | r :: t =>
    r :: firstOccurrences (t.filter (fun x => dedupKey x ≠ dedupKey r))
termination_by l => l.length
decreasing_by
  have := List.length_filter_le (fun x => dedupKey x ≠ dedupKey r) t
  simp only [List.length_cons]
  omega

/-- The note dicts flowing through the merge (only the text field is
inspected by it). -/
structure TNote where
  ntype : String
  code : String
  text : String
deriving DecidableEq, Repr

/-- The rule-based extraction result of AIDataProcessor
_rule_based_extraction: all seven keys always present. The rate and
commodity element types are parameters because the merge never inspects
them. -/
structure RuleRecord (ρ κ : Type) where
  header : List (String × PyV)
  commodities : List κ
  rates : List ρ
  notes : List TNote
  origin_info : String
  destination_info : String
  currency : String
deriving DecidableEq

/-- The AI extraction result: a parsed JSON object in which each of the keys
inspected by the merge may be absent. -/
structure AiRecord (ρ κ : Type) where
  header : Option (List (String × PyV))
  commodities : Option (List κ)
  rates : Option (List ρ)
  notes : Option (List TNote)
  origin_info : Option String
  destination_info : Option String
deriving DecidableEq

/-- The `if not ai_enhanced` test: the AI dict is empty (every inspected key
absent; an AI dict holding only keys the merge never reads would take the
other branch with an identical outcome). -/
def aiRecordEmpty {ρ κ : Type} (ai : AiRecord ρ κ) : Bool :=
  ai.header.isNone && ai.commodities.isNone && ai.rates.isNone &&
    ai.notes.isNone && ai.origin_info.isNone && ai.destination_info.isNone

/-- One iteration of the header loop of _merge_extraction_results:
merged[header][key] = value when the key is absent from the current header
dict or its current value is falsy. -/
def headerMergeStep (h : List (String × PyV)) (kv : String × PyV) :
    List (String × PyV) :=
  if (match alookup h kv.1 with
      | none => true
      | some v => !pyTruthy v) then dictSet h kv.1 kv.2 else h

/-- AIDataProcessor._merge_extraction_results, with the mutation made
explicit. The source starts from merged = rule_based.copy(), a shallow copy:
merged and rule_based share the same header dict object and the same notes
list object, so the header assignments merged[header][k] = v and the
appends merged[notes].append(note) are mutations visible through rule_based
as well, while merged[rates] = ..., merged[commodities] = ... and the
origin/destination assignments rebind slots of the merged dict only. The
function therefore returns a pair: the merged record, and the state of the
caller's rule_based record after the call. -/
def merge_extraction_results {ρ κ : Type} (rule : RuleRecord ρ κ) (ai : AiRecord ρ κ) :
    RuleRecord ρ κ × RuleRecord ρ κ :=
  if aiRecordEmpty ai then (rule, rule)
  else
    let mergedHeader :=
      match ai.header with
      | none => rule.header
      | some aih => aih.foldl headerMergeStep rule.header
    let mergedRates :=
      match ai.rates with
      | some air => if rule.rates.length < air.length then air else rule.rates
      | none => rule.rates
    let existingTexts := rule.notes.map (fun n => n.text)
    let mergedNotes :=
      match ai.notes with
      | some ain => rule.notes ++ ain.filter (fun n => !existingTexts.contains n.text)
      | none => rule.notes
    let mergedCommodities :=
      match ai.commodities with
      | some aic =>
        if rule.commodities.length < aic.length then aic else rule.commodities
      | none => rule.commodities
    let mergedOrigin :=
      match ai.origin_info with
      | some o => if o ≠ "" ∧ rule.origin_info.length < o.length then o else rule.origin_info
      | none => rule.origin_info
    let mergedDestination :=
      match ai.destination_info with
      | some d =>
        if d ≠ "" ∧ rule.destination_info.length < d.length then d
        else rule.destination_info
      | none => rule.destination_info
    ({ header := mergedHeader, commodities := mergedCommodities, rates := mergedRates,
       notes := mergedNotes, origin_info := mergedOrigin,
       destination_info := mergedDestination, currency := rule.currency },
     { rule with header := mergedHeader, notes := mergedNotes })

/-- The result dict of AIDataProcessor (shape of _empty_result). -/
structure AiResultDict where
  header : List (String × PyV)
  commodities : List CommodityDict
  rates : List AiRateDict
  notes : List TNote
  origin_info : String
  destination_info : String
  currency : String
  pdf_name : String
  raw_text : String
  metadata : List (String × PyV)
deriving DecidableEq

/-- AIDataProcessor._create_metadata. The datetime.now().isoformat() value
is passed in as now_iso, and self.ai_available as ai_available. Note there
is no extraction_success key. -/
def ai_create_metadata (text filename : String) (file_size : Int)
    (extraction_method : String) (now_iso : String) (ai_available : Bool) :
    List (String × PyV) :=
  let lines := splitOnChar '\n' text
  [("filename", .s filename),
   ("file_size_bytes", .i file_size),
   ("total_lines", .i lines.length),
   ("non_empty_lines", .i ((lines.filter (fun l => pyStrip l ≠ "")).length : Int)),
   ("text_length", .i (text.length : Int)),
   ("processing_timestamp", .s now_iso),
   ("extraction_method", .s extraction_method),
   ("ai_enhancement_used", .b ai_available),
   ("tables_found", .i ((countOccur text "TABLE" + countOccur text "ORIGIN" +
      countOccur text "DESTINATION" : Nat) : Int))]

/-- AIDataProcessor._empty_result. -/
def ai_empty_result (filename : String) (file_size : Int) (now_iso : String)
    (ai_available : Bool) : AiResultDict :=
  { header := [], commodities := [], rates := [], notes := [],
    origin_info := "", destination_info := "", currency := "USD",
    pdf_name := filename, raw_text := "",
    metadata := ai_create_metadata "" filename file_size "EMPTY_INPUT" now_iso ai_available }

/-- The result dict of ProductionOCRProcessor (shape of _empty_result). -/
structure ProdResultDict where
  header : List (String × PyV)
  commodities : List CommodityDict
  rates : List RateEntry
  notes : List TNote
  origin_info : String
  destination_info : String
  currency : String
  pdf_name : String
  raw_text : String
  processing_metadata : List (String × PyV)
deriving DecidableEq

/-- ProductionOCRProcessor._empty_result: the explicitly empty record, with
extraction_success False in its processing metadata. -/
def prod_empty_result (pdf_name : String) (file_size_bytes : Int) : ProdResultDict :=
  { header := [], commodities := [], rates := [], notes := [],
    origin_info := "", destination_info := "", currency := "USD",
    pdf_name := pdf_name, raw_text := "",
    processing_metadata :=
      [("processing_time_seconds", .i 0),
       ("file_size_bytes", .i file_size_bytes),
       ("ocr_engine", .s "Production OCR Processor"),
       ("pages_processed", .i 0),
       ("tables_found", .i 0),
       ("extraction_success", .b false),
       ("rates_found", .i 0),
       ("notes_found", .i 0),
       ("commodities_found", .i 0)] }

/-- A rule-based record used to exhibit the mutation of claim C10. -/
def c10_rule_example : RuleRecord Unit Unit :=
  { header := [("item_number", PyV.s "70001")], commodities := [], rates := [],
    notes := [], origin_info := "", destination_info := "", currency := "USD" }

/-- An AI record contributing one new note, used to exhibit the mutation of
claim C10. -/
def c10_ai_example : AiRecord Unit Unit :=
  { header := none, commodities := none, rates := none,
    notes := some [{ ntype := "NUMBERED", code := "1",
                     text := "Rates are in US Dollars per car." }],
    origin_info := none, destination_info := none }

/-- A rule-based record for the claim C4 witness. -/
def c4_rule_example : RuleRecord String String :=
  { header := [], commodities := ["Wheat"], rates := ["r1"], notes := [],
    origin_info := "", destination_info := "", currency := "USD" }

/-- An AI record with strictly more rates and commodities, for the claim C4
witness. -/
def c4_ai_example : AiRecord String String :=
  { header := none, commodities := some ["Wheat", "Corn", "Barley"],
    rates := some ["a1", "a2"], notes := none,
    origin_info := none, destination_info := none }

/-- A rule-based record with a non-empty item_number and a falsy (empty
string) revision, for the claim C3 witness. -/
def c3_rule_example : RuleRecord Unit Unit :=
  { header := [("item_number", PyV.s "70001"), ("revision", PyV.s "")],
    commodities := [], rates := [], notes := [],
    origin_info := "", destination_info := "", currency := "USD" }

/-- An AI record whose header disagrees on item_number and supplies a
revision, for the claim C3 witness. -/
def c3_ai_example : AiRecord Unit Unit :=
  { header := some [("item_number", PyV.s "99999"), ("revision", PyV.i 5)],
    commodities := none, rates := none, notes := none,
    origin_info := none, destination_info := none }

theorem alookup_cons {α : Type} (p : String × α) (t : List (String × α)) (k : String) :
    alookup (p :: t) k = if p.1 == k then some p.2 else alookup t k := by
  simp only [alookup, List.find?]
  cases h : p.1 == k <;> simp [h]

theorem alookup_dictSet {α : Type} (h : List (String × α)) (k : String) (v : α)
    (k' : String) :
    alookup (dictSet h k v) k' = if k' = k then some v else alookup h k' := by
  induction h with
  | nil =>
    simp only [dictSet, alookup_cons]
    by_cases hk : k' = k <;> simp [hk, beq_iff_eq, alookup]
    intro h
    exact absurd h.symm hk
  | cons p t ih =>
    simp only [dictSet]
    by_cases hpk : (p.1 == k) = true
    · have hp : p.1 = k := by simpa [beq_iff_eq] using hpk
      rw [if_pos hpk, alookup_cons, alookup_cons]
      by_cases hk : k' = k
      · subst hk
        simp [beq_iff_eq]
      · have h1 : (k == k') = false := by
          simp only [beq_eq_false_iff_ne, ne_eq]
          exact fun hh => hk hh.symm
        have h2 : (p.1 == k') = false := by rw [hp]; exact h1
        simp [h1, h2, hk]
    · rw [if_neg hpk, alookup_cons, alookup_cons, ih]
      by_cases hk : k' = k
      · subst hk
        have h2 : (p.1 == k') = false := by simpa using hpk
        simp [h2]
      · simp [hk]

theorem alookup_append {α : Type} (l1 l2 : List (String × α)) (k : String) :
    alookup (l1 ++ l2) k = (alookup l1 k).or (alookup l2 k) := by
  simp only [alookup, List.find?_append]
  cases h : List.find? (fun p => p.1 == k) l1 <;> simp [h, Option.or]

theorem startsWithL_self (l : List Char) : startsWithL l l = true := by
  induction l with
  | nil => rfl
  | cons c t ih => simp [startsWithL, ih]

theorem containsSub_self (s : String) : containsSub s s = true := by
  unfold containsSub
  cases h : s.data with
  | nil => rfl
  | cons c t => simp [containsSubL, startsWithL_self]

theorem firstCodeToken_eq_find (ws codes : List String) :
    firstCodeToken ws codes = ((ws.find? (fun w => codes.contains w)).getD "") := by
  induction ws with
  | nil => rfl
  | cons w ws ih =>
    simp only [firstCodeToken, List.find?]
    cases h : codes.contains w <;> simp [h, ih]

theorem dedup_aux_not_seen (l : List RateEntry) :
    ∀ (seen : List (String × String × String)) (r : RateEntry),
      r ∈ deduplicate_rates_aux l seen → seen.contains (dedupKey r) = false := by
  induction l with
  | nil => intro seen r hr; simp [deduplicate_rates_aux] at hr
  | cons a t ih =>
    intro seen r hr
    cases hs : seen.contains (dedupKey a) with
    | true =>
      rw [deduplicate_rates_aux, if_pos hs] at hr
      exact ih seen r hr
    | false =>
      have hcond : ¬(seen.contains (dedupKey a) = true) := by
        rw [hs]; exact Bool.false_ne_true
      rw [deduplicate_rates_aux, if_neg hcond] at hr
      rcases List.mem_cons.mp hr with h | h
      · subst h; exact hs
      · have h2 := ih (dedupKey a :: seen) r h
        rw [List.contains_cons] at h2
        exact (Bool.or_eq_false_iff.mp h2).2

theorem dedup_aux_pairwise (l : List RateEntry) :
    ∀ seen, (deduplicate_rates_aux l seen).Pairwise
      (fun a b => dedupKey a ≠ dedupKey b) := by
  induction l with
  | nil => intro seen; simp [deduplicate_rates_aux]
  | cons a t ih =>
    intro seen
    cases hs : seen.contains (dedupKey a) with
    | true => rw [deduplicate_rates_aux, if_pos hs]; exact ih seen
    | false =>
      have hcond : ¬(seen.contains (dedupKey a) = true) := by
        rw [hs]; exact Bool.false_ne_true
      rw [deduplicate_rates_aux, if_neg hcond]
      refine List.pairwise_cons.mpr ⟨?_, ih _⟩
      intro b hb
      have h2 := dedup_aux_not_seen t _ b hb
      rw [List.contains_cons] at h2
      have h3 := (Bool.or_eq_false_iff.mp h2).1
      intro he
      rw [he] at h3
      simp at h3

theorem dedup_aux_eq_self (l : List RateEntry) :
    ∀ seen, l.Pairwise (fun a b => dedupKey a ≠ dedupKey b) →
      (∀ r ∈ l, seen.contains (dedupKey r) = false) →
      deduplicate_rates_aux l seen = l := by
  induction l with
  | nil => intro seen _ _; rfl
  | cons a t ih =>
    intro seen hp hs
    have ha : seen.contains (dedupKey a) = false := hs a (List.mem_cons_self a t)
    have hcond : ¬(seen.contains (dedupKey a) = true) := by
      rw [ha]; exact Bool.false_ne_true
    rw [deduplicate_rates_aux, if_neg hcond]
    congr 1
    rcases List.pairwise_cons.mp hp with ⟨hane, hpt⟩
    refine ih _ hpt ?_
    intro r hr
    rw [List.contains_cons]
    have h1 : (dedupKey r == dedupKey a) = false := by
      simp only [beq_eq_false_iff_ne, ne_eq]
      exact fun hh => (hane r hr) hh.symm
    rw [h1, hs r (List.mem_cons_of_mem _ hr)]
    rfl

theorem dedup_aux_eq_firstOcc (l : List RateEntry) :
    ∀ seen, deduplicate_rates_aux l seen =
      firstOccurrences (l.filter (fun r => !seen.contains (dedupKey r))) := by
  induction l with
  | nil =>
    intro seen
    simp [deduplicate_rates_aux, firstOccurrences]
  | cons a t ih =>
    intro seen
    cases hs : seen.contains (dedupKey a) with
    | true =>
      rw [deduplicate_rates_aux, if_pos hs]
      rw [List.filter_cons_of_neg (by rw [hs]; simp)]
      exact ih seen
    | false =>
      have hcond : ¬(seen.contains (dedupKey a) = true) := by
        rw [hs]; exact Bool.false_ne_true
      rw [deduplicate_rates_aux, if_neg hcond]
      rw [List.filter_cons_of_pos (by rw [hs]; simp)]
      rw [firstOccurrences]
      congr 1
      rw [ih (dedupKey a :: seen), List.filter_filter]
      congr 1
      apply List.filter_congr
      intro x _
      rw [List.contains_cons]
      cases h1 : dedupKey x == dedupKey a with
      | true =>
        have hxe : dedupKey x = dedupKey a := by simpa [beq_iff_eq] using h1
        simp [hxe]
      | false =>
        have hxe : dedupKey x ≠ dedupKey a := by simpa using h1
        simp [hxe, h1]

/-- Claim C5: _deduplicate_rates returns exactly the first occurrence of
each (origin, destination, rate_amount) triple in input order, and is
idempotent. -/
theorem c5_dedup_first_seen_idempotent :
    (∀ l : List RateEntry, deduplicate_rates l = firstOccurrences l) ∧
    (∀ l : List RateEntry,
      deduplicate_rates (deduplicate_rates l) = deduplicate_rates l) := by
  constructor
  · intro l
    rw [deduplicate_rates, dedup_aux_eq_firstOcc l []]
    congr 1
    apply List.filter_eq_self.mpr
    intro r _
    rfl
  · intro l
    rw [deduplicate_rates, deduplicate_rates]
    apply dedup_aux_eq_self
    · exact dedup_aux_pairwise l []
    · intro r _
      rfl

/-- Claim C7 counterexample: on a string with no matching token both
implementations of extract_state return the empty string — a str — and not
None as the claim states (both functions are annotated -> str and their
no-match path is `return ''`). -/
theorem c7_counterexample :
    extract_state_from_location "UNKNOWN CITY" = "" ∧
    ai_extract_state_from_location "UNKNOWN CITY" = "" := by
  constructor <;> decide

/-- Claim C7 amended: extract_state upper-cases the string, tokenizes it on
whitespace and returns the first token occurring in the fixed 13 Canadian
plus 50 US state/province table, returning the empty string (not None) when
no token matches; both implementations agree; VANCOUVER BC yields BC and
UNKNOWN CITY yields the empty string. -/
theorem c7_amended_state_extraction :
    (∀ loc : String, extract_state_from_location loc =
      ((pySplitWs (pyUpper loc)).find? (fun w => state_codes.contains w)).getD "") ∧
    (∀ loc : String,
      ai_extract_state_from_location loc = extract_state_from_location loc) ∧
    extract_state_from_location "VANCOUVER BC" = "BC" ∧
    extract_state_from_location "UNKNOWN CITY" = "" := by
  have hkeys : state_province_codes.map Prod.fst = state_codes := by decide
  refine ⟨?_, ?_, by decide, by decide⟩
  · intro loc
    by_cases h : loc = ""
    · subst h; decide
    · rw [extract_state_from_location, if_neg h, firstCodeToken_eq_find]
  · intro loc
    rw [ai_extract_state_from_location, extract_state_from_location, hkeys]

/-- Claim C2 counterexample: on the input FOO 99, 9999 the month-name
pattern matches (\w{3} also matches FOO), no calendar validation happens,
and both date normalizers return the string 9999-01-99 — not None as the
claim states. -/
theorem c2_counterexample :
    parse_date "FOO 99, 9999" = some "9999-01-99" ∧
    standardize_date "FOO 99, 9999" = "9999-01-99" := by
  constructor <;> decide

/-- Claim C2 amended: _parse_date returns None exactly when none of its
three patterns matches (and on the empty string); when a pattern matches,
the result is assembled from the matched components with no calendar
validation, so invalid component values pass through. _standardize_date
returns its input unchanged (never None) when its single pattern does not
match. Both functions are total Lean functions: no exception path exists. -/
theorem c2_amended_date_normalizer :
    (∀ s : String, s ≠ "" → reSearch dateP1 (pyUpper s) = none →
      reSearch dateP2 (pyUpper s) = none → reSearch dateP3 (pyUpper s) = none →
      parse_date s = none) ∧
    (∀ s : String, reSearch dateP1 (pyUpper s) = none → standardize_date s = s) ∧
    parse_date "JUL 22, 2024" = some "2024-07-22" ∧
    parse_date "" = none := by
  refine ⟨?_, ?_, by decide, by decide⟩
  · intro s hs h1 h2 h3
    unfold parse_date
    rw [if_neg hs]
    simp only [h1, h2, h3]
  · intro s h1
    unfold standardize_date
    simp only [h1]

/-- Claim C2 witness: a concrete input on which no pattern matches. -/
theorem c2_witness :
    parse_date "HELLO" = none ∧ standardize_date "HELLO" = "HELLO" :=
  ⟨c2_amended_date_normalizer.1 "HELLO" (by decide) (by decide) (by decide) (by decide),
   c2_amended_date_normalizer.2.1 "HELLO" (by decide)⟩

/-- The bound checks used by _clean_rate_amount, written on the scaled
decimal, agree with the rational bounds 1/100 and 10000. -/
theorem decValue_bounds (p : Nat × Nat) :
    ((1 / 100 : ℚ) ≤ decValue p ↔ 10 ^ p.2 ≤ 100 * p.1) ∧
    (decValue p ≤ 10000 ↔ p.1 ≤ 10000 * 10 ^ p.2) := by
  have hpow : (0 : ℚ) < (10 : ℚ) ^ p.2 := by positivity
  constructor
  · rw [decValue, div_le_div_iff₀ (by norm_num) hpow, one_mul, mul_comm]
    exact_mod_cast Iff.rfl
  · rw [decValue, div_le_iff₀ hpow]
    exact_mod_cast Iff.rfl

/-- Claim C1 counterexample: _clean_rate_amount keeps the boundary value
0.01, which lies outside the claimed half-open interval (0.01, 10000.00];
and the AI _parse_rate_line applies no range check at all: the line below
yields a rate with amount 20000.00. -/
theorem c1_counterexample :
    clean_rate_amount "0.01" = "0.01" ∧
    (parse_rate_line "VANCOUVER BC TO CHICAGO IL $20000.00").map
      (fun r => r.rate_amount) = some "20000.00" := by
  constructor <;> decide

/-- Claim C1 amended: _clean_rate_amount returns a non-empty string only
when the cleaned amount parses and its exact value lies in the closed
interval [0.01, 10000.00] (both endpoints included), in which case the
two-decimal formatting of that value is returned; and _parse_rate_line
returns a rate only when both origin and destination are non-empty (it
checks no amount range). -/
theorem c1_amended_rate_validation :
    (∀ amount : String, clean_rate_amount amount ≠ "" →
      ∃ p : Nat × Nat,
        pyFloatDigitsDots
          (String.mk (amount.data.filter (fun c => c.isDigit || c == '.'))) = some p ∧
        (1 / 100 : ℚ) ≤ decValue p ∧ decValue p ≤ 10000 ∧
        clean_rate_amount amount = formatF2 p) ∧
    (∀ (line : String) (r : AiRateDict), parse_rate_line line = some r →
      r.origin ≠ "" ∧ r.destination ≠ "") := by
  constructor
  · intro a h
    unfold clean_rate_amount at h ⊢
    by_cases ha : a = ""
    · rw [if_pos ha] at h
      exact absurd rfl h
    · rw [if_neg ha] at h ⊢
      simp only at h ⊢
      cases hp : pyFloatDigitsDots (String.mk (a.data.filter (fun c => c.isDigit || c == '.'))) with
      | none =>
        rw [hp] at h
        simp only at h
        exact absurd rfl h
      | some p =>
        rw [hp] at h
        simp only at h ⊢
        by_cases hb : 10 ^ p.2 ≤ 100 * p.1 ∧ p.1 ≤ 10000 * 10 ^ p.2
        · refine ⟨p, rfl, ?_, ?_, ?_⟩
          · exact (decValue_bounds p).1.mpr hb.1
          · exact (decValue_bounds p).2.mpr hb.2
          · rw [if_pos hb]
        · rw [if_neg hb] at h
          exact absurd rfl h
  · intro line r h
    unfold parse_rate_line at h
    cases hs : reSearch rateAmountRE line with
    | none =>
      rw [hs] at h
      simp at h
    | some m =>
      obtain ⟨ms, caps⟩ := m
      rw [hs] at h
      simp only at h
      by_cases hloc : (extract_locations_from_line line).1 ≠ "" ∧
          (extract_locations_from_line line).2 ≠ ""
      · rw [if_pos hloc] at h
        cases h
        exact hloc
      · rw [if_neg hloc] at h
        cases h

/-- Claim C1 witness: a concrete amount accepted by _clean_rate_amount. -/
theorem c1_witness :
    ∃ p : Nat × Nat,
      pyFloatDigitsDots
        (String.mk (("52.75" : String).data.filter (fun c => c.isDigit || c == '.'))) = some p ∧
      (1 / 100 : ℚ) ≤ decValue p ∧ decValue p ≤ 10000 ∧
      clean_rate_amount "52.75" = formatF2 p :=
  c1_amended_rate_validation.1 "52.75" (by decide)

/-- Claim C8 counterexample: the AI processor's empty result has no
extraction_success key in its metadata at all (its _create_metadata never
writes one), so the metadata does not carry extraction_success = false. -/
theorem c8_counterexample :
    alookup (ai_empty_result "doc.pdf" 0 "2026-10-12T00:00:00" false).metadata
      "extraction_success" = none := by
  decide

/-- Claim C8 amended: the production processor's empty result has empty
rates, commodities and notes and extraction_success False in its processing
metadata; the AI processor's empty result has the same empty sequences but
its metadata carries extraction_method EMPTY_INPUT and no extraction_success
key. Both are plain constructions, so neither can raise. -/
theorem c8_amended_empty_results :
    (∀ (pdf_name : String) (file_size_bytes : Int),
      (prod_empty_result pdf_name file_size_bytes).rates = [] ∧
      (prod_empty_result pdf_name file_size_bytes).commodities = [] ∧
      (prod_empty_result pdf_name file_size_bytes).notes = [] ∧
      alookup (prod_empty_result pdf_name file_size_bytes).processing_metadata
        "extraction_success" = some (PyV.b false)) ∧
    (∀ (filename : String) (file_size : Int) (now_iso : String) (ai_available : Bool),
      (ai_empty_result filename file_size now_iso ai_available).rates = [] ∧
      (ai_empty_result filename file_size now_iso ai_available).commodities = [] ∧
      (ai_empty_result filename file_size now_iso ai_available).notes = [] ∧
      alookup (ai_empty_result filename file_size now_iso ai_available).metadata
        "extraction_success" = none ∧
      alookup (ai_empty_result filename file_size now_iso ai_available).metadata
        "extraction_method" = some (PyV.s "EMPTY_INPUT")) := by
  exact ⟨fun _ _ => ⟨rfl, rfl, rfl, rfl⟩, fun _ _ _ _ => ⟨rfl, rfl, rfl, rfl, rfl⟩⟩

/-- Claim C10: the merge builds its result on a shallow copy of rule_based,
so after the call the caller's rule_based record carries the merged header
dict and the merged notes list (every AI header fill and appended AI note is
visible through it), while its rates, commodities, origin/destination info
and currency are untouched; consequently a merge with an AI record that
contributes a header field or a note does leave rule_based changed, as the
concrete instance shows. -/
theorem c10_merge_shares_header_and_notes :
    (∀ (ρ κ : Type) (rule : RuleRecord ρ κ) (ai : AiRecord ρ κ),
      (merge_extraction_results rule ai).2.header =
        (merge_extraction_results rule ai).1.header ∧
      (merge_extraction_results rule ai).2.notes =
        (merge_extraction_results rule ai).1.notes ∧
      (merge_extraction_results rule ai).2.rates = rule.rates ∧
      (merge_extraction_results rule ai).2.commodities = rule.commodities ∧
      (merge_extraction_results rule ai).2.origin_info = rule.origin_info ∧
      (merge_extraction_results rule ai).2.destination_info = rule.destination_info ∧
      (merge_extraction_results rule ai).2.currency = rule.currency) ∧
    (merge_extraction_results c10_rule_example c10_ai_example).2 ≠ c10_rule_example := by
  constructor
  · intro ρ κ rule ai
    unfold merge_extraction_results
    by_cases he : aiRecordEmpty ai = true
    · rw [if_pos he]
      exact ⟨rfl, rfl, rfl, rfl, rfl, rfl, rfl⟩
    · rw [if_neg he]
      exact ⟨rfl, rfl, rfl, rfl, rfl, rfl, rfl⟩
  · decide

/-- Claim C4: when the AI record carries a rates list, the merged rates are
the AI list exactly when it is strictly longer than the rule-based list and
the rule-based list unchanged otherwise; the commodities list follows the
same wholesale-replacement policy. -/
theorem c4_merge_rates_wholesale {ρ κ : Type} (rule : RuleRecord ρ κ)
    (ai : AiRecord ρ κ) :
    (∀ air : List ρ, ai.rates = some air →
      (merge_extraction_results rule ai).1.rates =
        if rule.rates.length < air.length then air else rule.rates) ∧
    (∀ aic : List κ, ai.commodities = some aic →
      (merge_extraction_results rule ai).1.commodities =
        if rule.commodities.length < aic.length then aic else rule.commodities) := by
  constructor
  · intro air hr
    have he : aiRecordEmpty ai = false := by
      unfold aiRecordEmpty
      rw [hr]
      simp
    unfold merge_extraction_results
    rw [if_neg (by rw [he]; exact Bool.false_ne_true)]
    simp only [hr]
  · intro aic hc
    have he : aiRecordEmpty ai = false := by
      unfold aiRecordEmpty
      rw [hc]
      simp
    unfold merge_extraction_results
    rw [if_neg (by rw [he]; exact Bool.false_ne_true)]
    simp only [hc]

/-- Claim C4 witness: with two AI rates against one rule-based rate and
three AI commodities against one rule-based commodity, both lists are
replaced wholesale. -/
theorem c4_witness :
    (merge_extraction_results c4_rule_example c4_ai_example).1.rates = ["a1", "a2"] ∧
    (merge_extraction_results c4_rule_example c4_ai_example).1.commodities =
      ["Wheat", "Corn", "Barley"] := by
  have h := c4_merge_rates_wholesale c4_rule_example c4_ai_example
  exact ⟨(h.1 ["a1", "a2"] rfl).trans (by decide),
         (h.2 ["Wheat", "Corn", "Barley"] rfl).trans (by decide)⟩

theorem headerFold_preserve (items : List (String × PyV)) :
    ∀ (h : List (String × PyV)) (k : String) (v : PyV),
      alookup h k = some v → pyTruthy v = true →
      alookup (items.foldl headerMergeStep h) k = some v := by
  induction items with
  | nil => intro h k v hv _; simpa using hv
  | cons kv rest ih =>
    intro h k v hv ht
    rw [List.foldl_cons]
    refine ih _ k v ?_ ht
    unfold headerMergeStep
    by_cases hk : kv.1 = k
    · have hkv : alookup h kv.1 = some v := by rw [hk]; exact hv
      simp only [hkv, ht]
      simpa using hv
    · split
    

      · rw [alookup_dictSet]
        rw [if_neg (fun hh => hk hh.symm)]
        exact hv
      · exact hv

/-- Claim C3: the merge never overwrites a rule-based header field that is
present and truthy (non-empty in Python's sense), even when the AI value
differs; and whenever the merged header differs from the rule-based header
at a key, that rule-based field was absent or falsy. -/
theorem c3_merge_never_overwrites_header {ρ κ : Type} (rule : RuleRecord ρ κ)
    (ai : AiRecord ρ κ) :
    (∀ (k : String) (v : PyV), alookup rule.header k = some v → pyTruthy v = true →
      alookup (merge_extraction_results rule ai).1.header k = some v) ∧
    (∀ k : String,
      alookup (merge_extraction_results rule ai).1.header k ≠ alookup rule.header k →
      alookup rule.header k = none ∨
        ∃ v, alookup rule.header k = some v ∧ pyTruthy v = false) := by
  have part1 : ∀ (k : String) (v : PyV), alookup rule.header k = some v →
      pyTruthy v = true →
      alookup (merge_extraction_results rule ai).1.header k = some v := by
    intro k v hv ht
    unfold merge_extraction_results
    by_cases he : aiRecordEmpty ai = true
    · rw [if_pos he]
      exact hv
    · rw [if_neg he]
      cases hah : ai.header with
      | none => simp only [hah]; exact hv
      | some aih => simp only [hah]; exact headerFold_preserve aih rule.header k v hv ht
  refine ⟨part1, ?_⟩
  intro k hne
  cases hv : alookup rule.header k with
  | none => exact Or.inl rfl
  | some v =>
    cases ht : pyTruthy v with
    | true => exact absurd ((part1 k v hv ht).trans hv.symm) hne
    | false => exact Or.inr ⟨v, rfl, ht⟩

/-- Claim C3 witness: the AI item_number 99999 does not overwrite the
present, non-empty rule-based item_number 70001. -/
theorem c3_witness :
    alookup (merge_extraction_results c3_rule_example c3_ai_example).1.header
      "item_number" = some (PyV.s "70001") :=
  (c3_merge_never_overwrites_header c3_rule_example c3_ai_example).1
    "item_number" (PyV.s "70001") (by decide) (by decide)

theorem alookup_single_ne {α : Type} (key : String) (v : α) (k : String)
    (hk : key ≠ k) : alookup [(key, v)] k = none := by
  rw [alookup_cons]
  have h1 : (key == k) = false := by simpa using hk
  simp [h1, alookup]

theorem itemNumberPart_alookup_ne (header : List (String × PyV)) (k : String)
    (hk : k ≠ "item_number") : alookup (itemNumberPart header) k = none := by
  unfold itemNumberPart
  cases alookup header "item_number" with
  | none => rfl
  | some v =>
    simp only
    by_cases ht : pyTruthy v = true
    · rw [if_pos ht]
      exact alookup_single_ne _ _ _ (fun hh => hk hh.symm)
    · rw [if_neg ht]
      rfl

theorem dateFieldPart_alookup_ne (header : List (String × PyV)) (field k : String)
    (l : List (String × PyV)) (hk : k ≠ field)
    (h : dateFieldPart header field = .ok l) : alookup l k = none := by
  unfold dateFieldPart at h
  cases hv : alookup header field with
  | none => rw [hv] at h; cases h; rfl
  | some v =>
    rw [hv] at h
    simp only at h
    by_cases ht : pyTruthy v = true
    · rw [if_pos ht] at h
      cases v with
      | s str =>
        simp only at h
        cases hd : parse_date str with
        | none => rw [hd] at h; cases h; rfl
        | some d =>
          rw [hd] at h
          cases h
          exact alookup_single_ne _ _ _ (fun hh => hk hh.symm)
      | i n => cases h
      | b b' => cases h
    · rw [if_neg ht] at h
      cases h
      rfl

theorem textFieldPart_alookup_ne (header : List (String × PyV)) (field k : String)
    (hk : k ≠ field) : alookup (textFieldPart header field) k = none := by
  unfold textFieldPart
  cases alookup header field with
  | none => rfl
  | some v =>
    simp only
    by_cases ht : pyTruthy v = true
    · rw [if_pos ht]
      exact alookup_single_ne _ _ _ (fun hh => hk hh.symm)
    · rw [if_neg ht]
      rfl

theorem process_header_ok (header out : List (String × PyV))
    (h : process_header header = .ok out) :
    ∃ l1 l2 l3, dateFieldPart header "issue_date" = .ok l1 ∧
      dateFieldPart header "effective_date" = .ok l2 ∧
      dateFieldPart header "expiration_date" = .ok l3 ∧
      out = itemNumberPart header ++ revisionPart header ++ l1 ++ l2 ++ l3 ++
        textFieldPart header "cprs_number" ++
        textFieldPart header "change_description" := by
  unfold process_header at h
  cases h1 : dateFieldPart header "issue_date" with
  | error e => rw [h1] at h; cases h
  | ok l1 =>
    rw [h1] at h
    cases h2 : dateFieldPart header "effective_date" with
    | error e => rw [h2] at h; cases h
    | ok l2 =>
      rw [h2] at h
      cases h3 : dateFieldPart header "expiration_date" with
      | error e => rw [h3] at h; cases h
      | ok l3 =>
        rw [h3] at h
        cases h
        exact ⟨l1, l2, l3, rfl, rfl, rfl, rfl⟩

theorem process_header_alookup_revision (header out : List (String × PyV))
    (h : process_header header = .ok out) :
    alookup out "revision" = alookup (revisionPart header) "revision" := by
  rcases process_header_ok header out h with ⟨l1, l2, l3, h1, h2, h3, rfl⟩
  rw [alookup_append, alookup_append, alookup_append, alookup_append,
      alookup_append, alookup_append]
  rw [itemNumberPart_alookup_ne header _ (by decide),
      dateFieldPart_alookup_ne header "issue_date" _ l1 (by decide) h1,
      dateFieldPart_alookup_ne header "effective_date" _ l2 (by decide) h2,
      dateFieldPart_alookup_ne header "expiration_date" _ l3 (by decide) h3,
      textFieldPart_alookup_ne header "cprs_number" _ (by decide),
      textFieldPart_alookup_ne header "change_description" _ (by decide)]
  cases alookup (revisionPart header) "revision" <;> rfl

/-- Claim C6 counterexample: a header whose revision does not parse as an
integer is processed to a header that still carries the revision field, set
to the int 0 — the field is not omitted. -/
theorem c6_counterexample :
    process_header [("revision", PyV.s "abc")] =
      Except.ok [("revision", PyV.i 0)] := rfl

/-- Claim C6 amended: when the revision value is present and truthy, the
processed header always carries a revision field — the parsed integer when
int() succeeds, and the default 0 when parsing fails (the field is not
omitted on failure); the field is absent only when the raw revision is
absent or falsy. -/
theorem c6_revision_defaulted_to_zero :
    (∀ (header : List (String × PyV)) (v : PyV) (out : List (String × PyV)),
      alookup header "revision" = some v → pyTruthy v = true →
      pyParseInt (pyStrip (pyToStr v)) = none →
      process_header header = Except.ok out →
      alookup out "revision" = some (PyV.i 0)) ∧
    (∀ (header : List (String × PyV)) (v : PyV) (n : Int) (out : List (String × PyV)),
      alookup header "revision" = some v → pyTruthy v = true →
      pyParseInt (pyStrip (pyToStr v)) = some n →
      process_header header = Except.ok out →
      alookup out "revision" = some (PyV.i n)) ∧
    (∀ (header out : List (String × PyV)),
      process_header header = Except.ok out →
      alookup header "revision" = none →
      alookup out "revision" = none) ∧
    (∀ (header : List (String × PyV)) (v : PyV) (out : List (String × PyV)),
      process_header header = Except.ok out →
      alookup header "revision" = some v → pyTruthy v = false →
      alookup out "revision" = none) := by
  refine ⟨?_, ?_, ?_, ?_⟩
  · intro header v out hv ht hp hok
    rw [process_header_alookup_revision header out hok]
    unfold revisionPart
    rw [hv]
    simp only
    rw [if_pos ht, hp]
    decide
  · intro header v n out hv ht hp hok
    rw [process_header_alookup_revision header out hok]
    unfold revisionPart
    rw [hv]
    simp only
    rw [if_pos ht, hp]
    rw [alookup_cons]
    simp
  · intro header out hok hv
    rw [process_header_alookup_revision header out hok]
    unfold revisionPart
    rw [hv]
    rfl
  · intro header v out hok hv ht
    rw [process_header_alookup_revision header out hok]
    unfold revisionPart
    rw [hv]
    simp only
    rw [if_neg (by rw [ht]; exact Bool.false_ne_true)]
    rfl

/-- Claim C6 witness: the concrete unparseable revision "abc" is defaulted
to 0 in the processed header. -/
theorem c6_witness :
    alookup [("revision", PyV.i 0)] "revision" = some (PyV.i 0) :=
  c6_revision_defaulted_to_zero.1 [("revision", PyV.s "abc")] (PyV.s "abc")
    [("revision", PyV.i 0)] (by decide) (by decide) (by decide) rfl

theorem mrun_grpFree_caps :
    ∀ (f : Nat) (re : RE) (s : List Char) (p : Option Char)
      (g : List (Nat × List Char)) (r : List Char × Option Char × List (Nat × List Char)),
      grpFree re = true → r ∈ mrun f re s p g → r.2.2 = g := by
  intro f
  induction f with
  | zero => intro re s p g r _ hr; simp [mrun] at hr
  | succ f ih =>
    intro re s p g r hre hr
    cases re with
    | eps =>
      simp only [mrun] at hr
      simp at hr
      subst hr
      rfl
    | cls q =>
      simp only [mrun] at hr
      cases s with
      | nil => simp at hr
      | cons c t =>
        simp only at hr
        by_cases hq : q c = true
        · rw [if_pos hq] at hr
          simp at hr
          subst hr
          rfl
        · rw [if_neg hq] at hr
          simp at hr
    | cat a b =>
      simp only [mrun] at hr
      have hga : grpFree a = true ∧ grpFree b = true := by
        simpa [grpFree, Bool.and_eq_true] using hre
      obtain ⟨r1, hr1, hr2⟩ := List.mem_flatMap.mp hr
      have e1 := ih a s p g r1 hga.1 hr1
      have e2 := ih b r1.1 r1.2.1 r1.2.2 r hga.2 hr2
      rw [e2, e1]
    | alt a b =>
      simp only [mrun] at hr
      have hga : grpFree a = true ∧ grpFree b = true := by
        simpa [grpFree, Bool.and_eq_true] using hre
      rcases List.mem_append.mp hr with h | h
      · exact ih a _ _ _ r hga.1 h
      · exact ih b _ _ _ r hga.2 h
    | star a =>
      simp only [mrun] at hr
      have hga : grpFree a = true := by simpa [grpFree] using hre
      rcases List.mem_append.mp hr with h | h
      · obtain ⟨r1, hr1, hr2⟩ := List.mem_flatMap.mp h
        have e1 := ih a s p g r1 hga hr1
        by_cases hlt : r1.1.length < s.length
        · rw [if_pos hlt] at hr2
          have e2 := ih (.star a) r1.1 r1.2.1 r1.2.2 r (by simpa [grpFree] using hga) hr2
          rw [e2, e1]
        · rw [if_neg hlt] at hr2
          simp at hr2
          subst hr2
          exact e1
      · simp at h
        subst h
        rfl
    | grp i a => simp [grpFree] at hre
    | bnd =>
      simp only [mrun] at hr
      split at hr
      · simp at hr
        subst hr
        rfl
      · simp at hr

theorem reFuel_ne_zero (re : RE) (s : List Char) : reFuel re s ≠ 0 := by
  unfold reFuel
  exact Nat.mul_ne_zero (by omega) (by omega)

theorem findIterAux_grp1 (a : RE) (ha : grpFree a = true) :
    ∀ (fuel : Nat) (p : Option Char) (s : List Char)
      (m : List Char × List (Nat × List Char)),
      m ∈ findIterAux (.grp 1 a) fuel p s → m.1 ≠ [] ∧ m.2 = [(1, m.1)] := by
  intro fuel
  induction fuel with
  | zero => intro p s m hm; simp [findIterAux] at hm
  | succ f ih =>
    intro p s m hm
    simp only [findIterAux] at hm
    obtain ⟨F, hF⟩ : ∃ F, reFuel (.grp 1 a) s = F + 1 :=
      Nat.exists_eq_succ_of_ne_zero (reFuel_ne_zero _ _)
    rw [hF] at hm
    simp only [mrun] at hm
    cases hmr : mrun F a s p [] with
    | nil =>
      rw [hmr] at hm
      simp only [List.map_nil] at hm
      cases s with
      | nil => simp at hm
      | cons c t => exact ih _ _ _ hm
    | cons r rest =>
      rw [hmr] at hm
      simp only [List.map_cons] at hm
      by_cases hce : (s.take (s.length - r.1.length)).isEmpty = true
      · rw [if_pos hce] at hm
        cases s with
        | nil => simp at hm
        | cons c t => exact ih _ _ _ hm
      · rw [if_neg hce] at hm
        have hcaps : r.2.2 = [] :=
          mrun_grpFree_caps F a s p [] r ha (hmr ▸ List.mem_cons_self r rest)
        rcases List.mem_cons.mp hm with h | h
        · subst h
          refine ⟨?_, ?_⟩
          · intro hnil
            apply hce
            simp only at hnil
            rw [hnil]
            rfl
          · rw [hcaps]
        · exact ih _ _ _ h

theorem reFindIter_grp1 (a : RE) (ha : grpFree a = true) (s : String) :
    ∀ m ∈ reFindIter (.grp 1 a) s, capGet m.2 1 = m.1 ∧ m.1 ≠ "" := by
  intro m hm
  unfold reFindIter at hm
  obtain ⟨r, hr, rfl⟩ := List.mem_map.mp hm
  obtain ⟨hne, hcaps⟩ := findIterAux_grp1 a ha _ _ _ _ hr
  constructor
  · rw [hcaps]
    rfl
  · intro hh
    apply hne
    have hd := congrArg String.data hh
    simpa using hd

theorem stcc_commodities_codes_ne (text : String) :
    ∀ e ∈ stcc_commodities text, e.stcc_code ≠ "" := by
  intro e he
  unfold stcc_commodities at he
  obtain ⟨code, hcode, he2⟩ := List.mem_flatMap.mp he
  obtain ⟨m, hm, rfl⟩ := List.mem_map.mp hcode
  have h1 := reFindIter_grp1 stccInnerRE rfl text m hm
  have hcodeEq : e.stcc_code = capGet m.2 1 := by
    unfold stccEntry at he2
    cases hline : (splitOnChar '\n' text).find?
        (fun line => containsSub line (capGet m.2 1)) with
    | none => rw [hline] at he2; simp at he2
    | some line =>
      rw [hline] at he2
      simp only at he2
      split at he2
      · simp at he2
        rw [he2]
      · simp at he2
  rw [hcodeEq, h1.1]
  exact h1.2

theorem pairwise_vacuous_of_codes (l : List CommodityDict)
    (h : ∀ b ∈ l, b.stcc_code ≠ "") :
    l.Pairwise (fun a b => b.stcc_code = "" → pyLower a.name ≠ pyLower b.name) := by
  induction l with
  | nil => exact List.Pairwise.nil
  | cons a t ih =>
    refine List.pairwise_cons.mpr
      ⟨?_, ih (fun b hb => h b (List.mem_cons_of_mem _ hb))⟩
    intro b hb hbe
    exact absurd hbe (h b (List.mem_cons_of_mem _ hb))

theorem kwFold_pairwise (text : String) :
    ∀ ks : List String, (∀ k ∈ ks, pyLower (pyTitle k) = pyLower k) →
      ∀ acc : List CommodityDict,
        acc.Pairwise (fun a b => b.stcc_code = "" → pyLower a.name ≠ pyLower b.name) →
        (ks.foldl (commodityKeywordStep text) acc).Pairwise
          (fun a b => b.stcc_code = "" → pyLower a.name ≠ pyLower b.name) := by
  intro ks
  induction ks with
  | nil => intro _ acc hacc; simpa using hacc
  | cons k ks ih =>
    intro hks acc hacc
    rw [List.foldl_cons]
    refine ih (fun k' hk' => hks k' (List.mem_cons_of_mem _ hk')) _ ?_
    unfold commodityKeywordStep
    by_cases h1 : containsSub (pyUpper text) k = true
    · rw [if_pos h1]
      cases h2 : acc.any (fun c => containsSub (pyLower c.name) (pyLower k)) with
      | true =>
        rw [if_neg (by simp)]
        exact hacc
      | false =>
        rw [if_pos (by simp)]
        refine List.pairwise_append.mpr ⟨hacc, by simp, ?_⟩
        intro a ha b hb
        have hb' : b = { name := pyTitle k, stcc_code := "",
                         description := pyTitle k ++ " commodity" } := by
          simpa using hb
        subst hb'
        intro _ heq
        have hk_title : pyLower (pyTitle k) = pyLower k := hks k (List.mem_cons_self k ks)
        have hcontains : containsSub (pyLower a.name) (pyLower k) = true := by
          have heq2 : pyLower a.name = pyLower k := by
            simpa [hk_title] using heq
          rw [heq2]
          exact containsSub_self _
        have hfalse := List.any_eq_false.mp h2 a ha
        exact hfalse hcontains
    · rw [if_neg h1]
      exact hacc

/-- Claim C9 counterexample: a text whose STCC code occurs twice yields two
commodity entries with the same name WHEAT GRAIN — the returned sequence
does contain two entries with case-insensitively matching names. -/
theorem c9_counterexample :
    (extract_commodities_improved
      "WHEAT GRAIN 01 137 00\nWHEAT GRAIN 01 137 00").map (fun c => c.name) =
    ["WHEAT GRAIN", "WHEAT GRAIN"] := by
  decide

/-- Claim C9 amended: only the keyword pass deduplicates. A keyword-derived
entry (recognizable by its empty stcc_code) never case-insensitively matches
the name of any entry before it, because it is added only when no collected
entry's lower-cased name contains the lower-cased keyword; STCC-derived
entries carry a non-empty code and may duplicate names freely. -/
theorem c9_amended_keyword_dedup_only (text : String) :
    (extract_commodities_improved text).Pairwise
      (fun a b => b.stcc_code = "" → pyLower a.name ≠ pyLower b.name) := by
  unfold extract_commodities_improved
  apply kwFold_pairwise
  · decide
  · exact pairwise_vacuous_of_codes _ (stcc_commodities_codes_ne text)
